import Mathlib

set_option maxRecDepth 8192

/-!
Shallow embedding of the retail-analytics copilot core:
the SQL gateway (`src/agent/tools/sqlite_tool.py`), the BM25-style
ranking retriever (`src/agent/rag/retrieval.py`), the LangGraph
orchestrator (`src/agent/graph_hybrid.py`) and the batch runner
(`src/run_agent_hybrid.py`).

Python strings are modelled by Lean `String`; the Python string methods
used by the source (`lower`, `strip`, `startswith`, `in`, `replace`,
`join`) are modelled by explicit char-list functions below so that every
definition evaluates by kernel reduction.
-/

/-- Model of Python `str.lower()` (per-character lowercasing). -/
def pyLower (s : String) : String :=
  String.mk (s.toList.map Char.toLower)

/-- Model of Python `str.strip()`: drop whitespace from both ends. -/
def pyStrip (s : String) : String :=
  String.mk (((s.toList.dropWhile Char.isWhitespace).reverse.dropWhile
      Char.isWhitespace).reverse)

/-- Model of Python `str.startswith(pat)`. -/
def pyStartsWith (s pat : String) : Bool :=
  pat.toList.isPrefixOf s.toList

/-- Model of Python `pat in s` (substring containment). -/
def pyContains (s pat : String) : Bool :=
  (List.range (s.toList.length + 1)).any
    (fun i => pat.toList.isPrefixOf (s.toList.drop i))

/-- Model of Python `str.replace(pat, rep)` on char lists: leftmost,
non-overlapping replacement. The `Nat` argument is structural fuel,
always called with at least the length of the list, so the fuel-out
case is unreachable. -/
def pyReplaceAux (pat rep : List Char) : Nat → List Char → List Char
  | _, [] => []
  | 0, l => l
  | fuel + 1, c :: cs =>
    if pat ≠ [] ∧ pat.isPrefixOf (c :: cs) then
      rep ++ pyReplaceAux pat rep fuel ((c :: cs).drop pat.length)
    else
      c :: pyReplaceAux pat rep fuel cs

/-- Model of Python `str.replace(pat, rep)`. -/
def pyReplace (s pat rep : String) : String :=
  String.mk (pyReplaceAux pat.toList rep.toList s.toList.length s.toList)

/-- Model of Python `sep.join(xs)`. -/
def pyJoin (sep : String) (xs : List String) : String :=
  String.intercalate sep xs

/-- Model of Python truthiness of an `Optional[str]` value:
`None` and `""` are falsy, every other string is truthy. -/
def truthyStr : Option String → Bool
  | none => false
  | some s => !(s == "")

/-! ## SQL Gateway (`src/agent/tools/sqlite_tool.py`) -/

/-- A result row as SQLite materializes it: an ordered mapping from
column name to a (rendered) value. -/
abbrev SqlRow := List (String × String)

/-- The behaviour of the underlying SQLite engine on one statement:
either `cursor.execute` succeeds (and a fetch would produce the given
rows and column names), or it raises an exception whose `str(e)` is
`msg`. The engine itself is an external collaborator; its behaviour is
an oracle input to the embedding. -/
inductive DbOutcome where
  | ok (rows : List SqlRow) (cols : List String)
  | err (msg : String)
deriving DecidableEq

namespace SQLiteTool

/-- Embedding of `SQLiteTool.execute_sql`: runs the statement against
the engine outcome `out`; on success it materializes rows only when the
trimmed statement lowercases to something starting with `"select"`,
otherwise it commits and returns empty rows/columns; on an exception it
returns empty rows/columns and `str(e)` as the error. The Python
`try/except` is total: the function always returns a triple. -/
def execute_sql (query : String) (out : DbOutcome) :
    List SqlRow × List String × Option String :=
  match out with
  | .err msg => ([], [], some msg)
  | .ok rows cols =>
    if pyStartsWith (pyLower (pyStrip query)) "select" then
      (rows, cols, none)
    else
      ([], [], none)

end SQLiteTool

/-! ## Ranking Index (`src/agent/rag/retrieval.py`) -/

/-- A character matched by `\w` in the source's token pattern
(alphanumeric or underscore; ASCII model). -/
def isWordChar (c : Char) : Bool := c.isAlphanum || c == '_'

/-- Maximal runs of word characters, i.e. `re.findall(r'\b\w+\b', ·)`.
The second argument accumulates the current (reversed) run. -/
def tokenizeAux : List Char → List Char → List String
  | [], acc => if acc.isEmpty then [] else [String.mk acc.reverse]
  | c :: cs, acc =>
    if isWordChar c then tokenizeAux cs (c :: acc)
    else if acc.isEmpty then tokenizeAux cs []
    else String.mk acc.reverse :: tokenizeAux cs []

/-- Embedding of `SimpleRetriever._tokenize`:
`re.findall(r'\b\w+\b', text.lower())`. -/
def tokenize (text : String) : List String :=
  tokenizeAux (pyLower text).toList []

/-- Model of Python `str.endswith(pat)`. -/
def pyEndsWith (s pat : String) : Bool :=
  pat.toList.isSuffixOf s.toList

/-- Splitter for `re.split(r'\n#{1,3} |\n\n', content)`: at each
position try the greedy heading delimiters `"\n### "`, `"\n## "`,
`"\n# "` and then `"\n\n"`; a match ends the current piece. -/
def splitChunksAux : List Char → List Char → List String
  | [], acc => [String.mk acc.reverse]
  | '\n' :: '#' :: '#' :: '#' :: ' ' :: rest, acc =>
    String.mk acc.reverse :: splitChunksAux rest []
  | '\n' :: '#' :: '#' :: ' ' :: rest, acc =>
    String.mk acc.reverse :: splitChunksAux rest []
  | '\n' :: '#' :: ' ' :: rest, acc =>
    String.mk acc.reverse :: splitChunksAux rest []
  | '\n' :: '\n' :: rest, acc =>
    String.mk acc.reverse :: splitChunksAux rest []
  | c :: cs, acc =>
    splitChunksAux cs (c :: acc)

/-- Embedding of the source's chunk splitting:
`re.split(r'\n#{1,3} |\n\n', content)`. -/
def splitChunks (content : String) : List String :=
  splitChunksAux content.toList []

/-- A document chunk as stored by `SimpleRetriever._load_and_index`. -/
structure Chunk where
  id : String
  content : String
  source : String
deriving DecidableEq

instance : Inhabited Chunk := ⟨⟨"", "", ""⟩⟩

/-- A raw corpus document: a directory entry (filename) plus its text,
in the order the directory listing produces them. -/
structure RawDoc where
  filename : String
  content : String
deriving DecidableEq

/-- The chunk/token pairs one corpus file contributes in
`_load_and_index`: only `.md` files are read; the file is split into
raw chunks; a raw chunk is kept iff it is non-empty after stripping,
with id `filename::chunk<ordinal>`, stripped content, and tokens taken
from the unstripped text. -/
def docEntries (filename content : String) : List (Chunk × List String) :=
  if pyEndsWith filename ".md" then
    (splitChunks content).enum.filterMap fun p =>
      if pyStrip p.2 ≠ "" then
        some ({ id := filename ++ "::chunk" ++ toString p.1,
                content := pyStrip p.2, source := filename }, tokenize p.2)
      else none
  else []

/-- The retriever's state after `_load_and_index`: the chunk list and
the parallel tokenized corpus. The source's `bm25` field is `None`
exactly when `corpusTokens` is empty. -/
structure Retriever where
  chunks : List Chunk
  corpusTokens : List (List String)
deriving DecidableEq

/-- Embedding of `SimpleRetriever._load_and_index` over a listed
corpus: chunks and tokenized corpus are accumulated file by file. -/
def buildRetriever (corpus : List RawDoc) : Retriever :=
  let entries := (corpus.map (fun d => docEntries d.filename d.content)).flatten
  { chunks := entries.map Prod.fst, corpusTokens := entries.map Prod.snd }

/-- The BM25 scoring engine (`rank_bm25.BM25Okapi.get_scores`) is an
external library, modelled as an opaque deterministic function from the
tokenized corpus and tokenized query to one score per corpus entry. -/
abbrev Scorer := List (List String) → List String → List ℚ

/-- Embedding of the index selection in `SimpleRetriever.search`:
`sorted(range(len(scores)), key=lambda i: scores[i], reverse=True)[:k]`.
Python's `sorted` is a stable sort; `reverse=True` with the score key is
the stable sort by the non-strict relation `scores[j] <= scores[i]`. -/
def searchIdxs (scores : List ℚ) (k : Nat) : List Nat :=
  ((List.range scores.length).mergeSort
    (fun i j => decide (scores.getD j 0 ≤ scores.getD i 0))).take k

/-- Embedding of `SimpleRetriever.search`: empty result when the index
has no chunks (`bm25 is None`), otherwise score every chunk and return
the top-k chunks paired with their scores. -/
def Retriever.search (r : Retriever) (scorer : Scorer) (query : String)
    (k : Nat) : List (Chunk × ℚ) :=
  if r.corpusTokens.isEmpty then []
  else
    let scores := scorer r.corpusTokens (tokenize query)
    (searchIdxs scores k).map fun i =>
      (r.chunks.getD i default, scores.getD i 0)

/-! ## Orchestrator (`src/agent/graph_hybrid.py`) -/

/-- The planner's constraint set (`planner_node`). -/
structure Constraints where
  date_range_start : Option String
  date_range_end : Option String
  kpi_formula : Option String
  entities : List String
deriving DecidableEq

/-- Embedding of the `AgentState` TypedDict threaded through the graph,
with the initial values the batch runner supplies (absent keys are
modelled by `none` / `""` / `[]`). -/
structure AgentState where
  question : String
  format_hint : String
  classification : Option String
  retrieved_docs : List (Chunk × ℚ)
  constraints : Option Constraints
  schema : String
  sql_query : String
  sql_results : List SqlRow
  sql_columns : List String
  sql_error : Option String
  final_answer : Option String
  citations : List String
  repair_count : Nat
  repair_feedback : Option String
deriving DecidableEq

/-- The graph's nodes (`build_graph`), plus the `END` terminal. A
routing label outside the conditional-edge tables would raise in
LangGraph; the embedding sends it to `done` (the run ends). -/
inductive Node where
  | router | retriever | planner | sqlGen | executor | repair | synth
  | done
deriving DecidableEq

/-- The external collaborators of one run: the four structured
prediction ports (which may fault: `Except.error` is a raised
exception), the document index with its BM25 scorer, and the SQLite
engine's behaviour per statement. All are oracles to the embedding. -/
structure Env where
  classify : String → Except String String
  extract : String → String → Except String Constraints
  generate : String → String → String → Option String
  schemaText : String
  db : String → DbOutcome
  retr : Retriever
  scorer : Scorer
  synthesize :
    String → String → String → String → String →
      Except String (String × List String)

/-- Embedding of the classification logic of `router_node`: lowercase
and strip the raw label, then prefer `"hybrid"`, then `"sql"`, else
`"rag"`; any exception from the port defaults to `"hybrid"`. -/
def routerClassify (res : Except String String) : String :=
  match res with
  | .error _ => "hybrid"
  | .ok raw =>
    let cls := pyStrip (pyLower raw)
    if pyContains cls "hybrid" then "hybrid"
    else if pyContains cls "sql" then "sql"
    else "rag"

/-- Rendering of `str(state.get("constraints", "None"))` in
`sql_generator_node`. The batch runner always initializes the key with
an empty dict, rendered `{}`; the exact text is immaterial to the
control flow. -/
def reprConstraints : Option Constraints → String
  | none => "\x7b\x7d"
  | some c =>
    "\x7b" ++ (c.date_range_start.getD "None") ++ ", " ++
      (c.date_range_end.getD "None") ++ ", " ++
      (c.kpi_formula.getD "None") ++ ", [" ++
      pyJoin ", " c.entities ++ "]\x7d"

/-- Rendering of Python `str(...)` for a result row (a dict). -/
def pyStrRow (r : SqlRow) : String :=
  "\x7b" ++ pyJoin ", " (r.map (fun kv => kv.1 ++ ": " ++ kv.2)) ++ "\x7d"

/-- Rendering of Python `str(...)` for a list of result rows. -/
def pyStrRows (rows : List SqlRow) : String :=
  "[" ++ pyJoin ", " (rows.map pyStrRow) ++ "]"

/-- The `results_str` computed inside `synthesizer_node`: if there are
more than 20 rows, render the first 20 and append a note with the
number of omitted rows; otherwise render all rows. -/
def synthResultsStr (results : List SqlRow) : String :=
  if results ≠ [] ∧ results.length > 20 then
    pyStrRows (results.take 20) ++ "\n... (" ++
      toString (results.length - 20) ++ " more rows omitted)"
  else
    pyStrRows results

/-- The `sql_result` argument `synthesizer_node` actually passes to the
synthesis port: `str(state.get("sql_results", []))`, the rendering of
the full row list (the computed `results_str` is only used in the
node-local `sql_info` string, which is never passed on). -/
def synthPortSqlResult (s : AgentState) : String :=
  pyStrRows s.sql_results

/-- Embedding of `repair_check_node`: emit `"repair"` iff the stored
error is truthy and `repair_count < 2`, else `"synthesize"`. -/
def repair_check (s : AgentState) : String :=
  if truthyStr s.sql_error ∧ s.repair_count < 2 then "repair"
  else "synthesize"

/-- A configuration of the compiled graph: current node, state, and a
ghost counter of how many times `sql_generator_node` has run (not part
of the source state; it only instruments the embedding). -/
structure Config where
  node : Node
  st : AgentState
  genCount : Nat
deriving DecidableEq

/-- One transition of the compiled graph: run the current node on the
state and follow the (conditional) edge out of it, as wired in
`build_graph`. -/
def step (env : Env) (c : Config) : Config :=
  match c.node with
  | .router =>
    let cls := routerClassify (env.classify c.st.question)
    { node :=
        if cls = "rag" then .retriever
        else if cls = "sql" then .sqlGen
        else if cls = "hybrid" then .retriever
        else .done,
      st := { c.st with classification := some cls },
      genCount := c.genCount }
  | .retriever =>
    let s := { c.st with
      retrieved_docs := env.retr.search env.scorer c.st.question 1 }
    { node :=
        if s.classification = some "rag" then .synth
        else if s.classification = some "hybrid" then .planner
        else .done,
      st := s, genCount := c.genCount }
  | .planner =>
    let ctx := pyJoin "\n\n" (c.st.retrieved_docs.map (fun d => d.1.content))
    let cs :=
      match env.extract c.st.question ctx with
      | .ok cset => cset
      | .error _ => ⟨none, none, none, []⟩
    { node := .sqlGen, st := { c.st with constraints := some cs },
      genCount := c.genCount }
  | .sqlGen =>
    let cstr0 := reprConstraints c.st.constraints
    let cstr :=
      if truthyStr c.st.repair_feedback then
        cstr0 ++ "\nPREVIOUS ERROR: " ++ c.st.repair_feedback.getD "" ++
          ". FIX THIS."
      else cstr0
    let sql :=
      match env.generate c.st.question env.schemaText cstr with
      | some raw => pyStrip (pyReplace (pyReplace (pyStrip raw) "```sql" "") "```" "")
      | none => ""
    { node := .executor,
      st := { c.st with sql_query := sql, schema := env.schemaText },
      genCount := c.genCount + 1 }
  | .executor =>
    let res := SQLiteTool.execute_sql c.st.sql_query (env.db c.st.sql_query)
    let s := { c.st with
      sql_results := res.1, sql_columns := res.2.1, sql_error := res.2.2 }
    { node := if repair_check s = "repair" then .repair else .synth,
      st := s, genCount := c.genCount }
  | .repair =>
    let fb :=
      match c.st.sql_error with
      | some e => if e = "" then "Invalid format or empty result" else e
      | none => "Invalid format or empty result"
    { node := .sqlGen,
      st := { c.st with
        repair_count := c.st.repair_count + 1,
        repair_feedback := some fb },
      genCount := c.genCount }
  | .synth =>
    let ctx := pyJoin "\n\n" (c.st.retrieved_docs.map (fun d => d.1.content))
    let res :=
      match env.synthesize c.st.question c.st.sql_query
          (synthPortSqlResult c.st) ctx c.st.format_hint with
      | .ok ac => ac
      | .error e => ("Error synthesizing answer: " ++ e, [])
    { node := .done,
      st := { c.st with final_answer := some res.1, citations := res.2 },
      genCount := c.genCount }
  | .done => c

/-- Iterates `n` transitions of the compiled graph. -/
def runN (env : Env) : Nat → Config → Config
  | 0, c => c
  | n + 1, c => runN env n (step env c)

/-- The initial `AgentState` the batch runner passes to
`app.invoke` for a question and its format hint. -/
def initState (q fh : String) : AgentState :=
  { question := q, format_hint := fh, classification := none,
    retrieved_docs := [], constraints := none, schema := "",
    sql_query := "", sql_results := [], sql_columns := [],
    sql_error := none, final_answer := none, citations := [],
    repair_count := 0, repair_feedback := none }

/-- The initial configuration: entry point `router`, fresh state, no
generation attempts yet. -/
def initConfig (q fh : String) : Config :=
  ⟨.router, initState q fh, 0⟩

/-! ## Batch runner (`src/run_agent_hybrid.py`) -/

/-- One parsed input line of the batch file. -/
structure InQ where
  id : String
  question : String
  format_hint : Option String
deriving DecidableEq

/-- One output record of the batch runner. -/
structure OutRec where
  id : String
  final_answer : Option String
  sql : String
  confidence : ℚ
  explanation : String
  citations : List String
deriving DecidableEq

/-- Embedding of the per-question body of `main`'s loop: `app.invoke`
is an oracle that either returns a final state or raises (`.error`);
a raise is caught and turned into a zero-confidence failure record. -/
def processOne (invoke : InQ → Except String AgentState) (q : InQ) :
    OutRec :=
  match invoke q with
  | .ok fs =>
    { id := q.id, final_answer := fs.final_answer, sql := fs.sql_query,
      confidence := if truthyStr fs.sql_error then 1/5 else 4/5,
      explanation := "Generated based on hybrid analysis of docs and DB.",
      citations := fs.citations }
  | .error e =>
    { id := q.id, final_answer := none, sql := "", confidence := 0,
      explanation := "Error: " ++ e, citations := [] }

/-- Embedding of `main`'s loop over all parsed input lines. -/
def runBatch (invoke : InQ → Except String AgentState) (qs : List InQ) :
    List OutRec :=
  qs.map (processOne invoke)

/-! ## Concrete environments used to evaluate the embedding -/

/-- A corpus-length scorer: a concrete stand-in for the opaque BM25
engine in concrete evaluations (one score per corpus entry). -/
def tokenCountScorer : Scorer :=
  fun corpus _ => corpus.map (fun d => (d.length : ℚ))

/-- A concrete environment whose classifier answers `"sql"`, whose
generator emits a fenced `SELECT 1`, and whose database succeeds on
`SELECT` statements. -/
def envSqlOk : Env :=
  { classify := fun _ => .ok "sql",
    extract := fun _ _ => .error "unavailable",
    generate := fun _ _ _ => some "```sql\nSELECT 1\n```",
    schemaText := "CREATE TABLE t(x);",
    db := fun q =>
      if pyStartsWith (pyLower (pyStrip q)) "select" then
        .ok [[("x", "1")]] ["x"]
      else .err "boom",
    retr := buildRetriever [⟨"a.md", "Returns policy"⟩],
    scorer := tokenCountScorer,
    synthesize := fun _ _ _ _ _ => .ok ("1", ["t"]) }

/-! ## Claim theorems -/

/-- C2: `execute_sql` always returns a `(rows, columns, error)` triple
(the `try/except` makes the call total — the embedding never needs a
fault case), and on any execution fault whose message `msg` is
non-empty (as SQLite produces for syntax errors, constraint violations
and missing objects) it returns empty rows, empty columns, and the
non-empty error string `msg`. -/
theorem execute_sql_fault_contract (q msg : String) (hm : msg ≠ "") :
    (∀ out : DbOutcome, ∃ rows cols err,
      SQLiteTool.execute_sql q out = (rows, cols, err)) ∧
    SQLiteTool.execute_sql q (.err msg) = ([], [], some msg) ∧
    truthyStr (SQLiteTool.execute_sql q (.err msg)).2.2 = true := by
  refine ⟨fun out => ⟨_, _, _, rfl⟩, rfl, ?_⟩
  simp [SQLiteTool.execute_sql, truthyStr, hm]

/-- Witness for C2 at a concrete faulting statement. -/
theorem execute_sql_fault_contract_witness :
    ("no such table: Products" ≠ "") ∧
    SQLiteTool.execute_sql "SELECT * FROM Products"
        (.err "no such table: Products") =
      ([], [], some "no such table: Products") :=
  ⟨by decide,
    (execute_sql_fault_contract "SELECT * FROM Products"
      "no such table: Products" (by decide)).2.1⟩

/-- C10: `execute_sql` decides row materialization solely by whether
the trimmed statement lowercases to something starting with
`"select"`; any successfully executing statement that does not (e.g. a
`WITH ... SELECT` query) commits and returns empty rows, empty columns
and no error, discarding the rows the statement produced. -/
theorem execute_sql_nonselect_discards (q : String) (rows : List SqlRow)
    (cols : List String)
    (h : pyStartsWith (pyLower (pyStrip q)) "select" = false) :
    SQLiteTool.execute_sql q (.ok rows cols) = ([], [], none) := by
  simp [SQLiteTool.execute_sql, h]

/-- Witness for C10: a CTE query that produced a row, silently
discarded. -/
theorem execute_sql_nonselect_discards_witness :
    pyStartsWith
        (pyLower (pyStrip "WITH t AS (SELECT 1 AS x) SELECT x FROM t"))
        "select" = false ∧
    SQLiteTool.execute_sql "WITH t AS (SELECT 1 AS x) SELECT x FROM t"
      (.ok [[("x", "1")]] ["x"]) = ([], [], none) :=
  ⟨by decide, execute_sql_nonselect_discards _ _ _ (by decide)⟩

/-- C6: the Router normalizes the raw label by substring match on the
lowercased, stripped text — any label containing `"hybrid"` maps to
`hybrid`, else containing `"sql"` to `sql`, else to `rag` — a fault
from the classification port yields `hybrid`, and the router node
stores exactly this normalization in the state. -/
theorem router_normalization (raw e : String) (env : Env) (c : Config)
    (hc : c.node = Node.router) :
    (pyContains (pyStrip (pyLower raw)) "hybrid" = true →
      routerClassify (.ok raw) = "hybrid") ∧
    (pyContains (pyStrip (pyLower raw)) "hybrid" = false →
      pyContains (pyStrip (pyLower raw)) "sql" = true →
      routerClassify (.ok raw) = "sql") ∧
    (pyContains (pyStrip (pyLower raw)) "hybrid" = false →
      pyContains (pyStrip (pyLower raw)) "sql" = false →
      routerClassify (.ok raw) = "rag") ∧
    routerClassify (.error e) = "hybrid" ∧
    (step env c).st.classification =
      some (routerClassify (env.classify c.st.question)) := by
  obtain ⟨node, s, g⟩ := c
  cases hc
  exact ⟨fun h1 => by simp [routerClassify, h1],
    fun h1 h2 => by simp [routerClassify, h1, h2],
    fun h1 h2 => by simp [routerClassify, h1, h2], rfl, rfl⟩

/-- Witness for C6 at concrete labels. -/
theorem router_normalization_witness :
    (⟨Node.router, initState "q" "str", 0⟩ : Config).node = Node.router ∧
    routerClassify (.ok " Hybrid-SQL ") = "hybrid" ∧
    routerClassify (.ok "SQL query") = "sql" ∧
    routerClassify (.ok "docs") = "rag" ∧
    routerClassify (.error "port down") = "hybrid" := by
  have h := router_normalization " Hybrid-SQL " "port down" envSqlOk
    ⟨Node.router, initState "q" "str", 0⟩ rfl
  have h2 := router_normalization "SQL query" "port down" envSqlOk
    ⟨Node.router, initState "q" "str", 0⟩ rfl
  have h3 := router_normalization "docs" "port down" envSqlOk
    ⟨Node.router, initState "q" "str", 0⟩ rfl
  exact ⟨rfl, h.1 (by decide), h2.2.1 (by decide) (by decide),
    h3.2.2.1 (by decide) (by decide), h.2.2.2.1⟩

/-- Twenty-one one-column result rows: a concrete failing input for C4. -/
def rows21 : List SqlRow :=
  (List.range 21).map (fun i => [("n", toString i)])

/-- A pipeline state about to enter the synthesizer with 21 rows. -/
def stateRows21 : AgentState :=
  { initState "q" "str" with sql_results := rows21 }

/-- An environment whose synthesis port echoes back the `sql_result`
argument it receives, exposing what the node passed it. -/
def envEcho : Env :=
  { envSqlOk with synthesize := fun _ _ r _ _ => .ok (r, []) }

/-- C4 (code bug in `synthesizer_node`): with 21 stored rows the node
computes the size-bounded `results_str` but passes the rendering of
the FULL row list to the synthesis port (`sql_result=str(state.get(
"sql_results", []))`); the truncated rendering is only used in the
dead local `sql_info`. The port argument equals the full rendering,
differs from the truncated one, and the echo port exposes the full
rendering through the graph step. -/
theorem synthesizer_passes_untruncated_rows :
    rows21.length = 21 ∧
    synthPortSqlResult stateRows21 = pyStrRows rows21 ∧
    synthPortSqlResult stateRows21 ≠ synthResultsStr rows21 ∧
    (step envEcho ⟨Node.synth, stateRows21, 0⟩).st.final_answer =
      some (pyStrRows rows21) := by
  refine ⟨by decide, rfl, by decide, rfl⟩

instance : Inhabited InQ := ⟨⟨"", "", none⟩⟩

instance : Inhabited OutRec := ⟨⟨"", none, "", 0, "", []⟩⟩

/-- The batch output at a valid index is the processed input at that
index. -/
lemma runBatch_getD (invoke : InQ → Except String AgentState)
    (qs : List InQ) (i : Nat) (hi : i < qs.length) :
    (runBatch invoke qs).getD i default =
      processOne invoke (qs.getD i default) := by
  have h1 : qs[i]? = some qs[i] := List.getElem?_eq_getElem hi
  simp [runBatch, List.getD_eq_getElem?_getD, h1]

/-- C5: the batch runner emits exactly one record per input line, the
record at index `i` carries the input's id; when processing raises, the
record has `final_answer = none`, confidence `0`, and an explanatory
message (and the map structure means the remaining questions are still
processed); when processing returns a final state, confidence is `0.8`
exactly when the final state's `sql_error` is not truthy and `0.2`
otherwise. -/
theorem batch_contract (invoke : InQ → Except String AgentState)
    (qs : List InQ) (i : Nat) (hi : i < qs.length) :
    (runBatch invoke qs).length = qs.length ∧
    ((runBatch invoke qs).getD i default).id = (qs.getD i default).id ∧
    (∀ e, invoke (qs.getD i default) = .error e →
      (runBatch invoke qs).getD i default =
        ⟨(qs.getD i default).id, none, "", 0, "Error: " ++ e, []⟩) ∧
    (∀ fs, invoke (qs.getD i default) = .ok fs →
      (truthyStr fs.sql_error = false ↔
        ((runBatch invoke qs).getD i default).confidence = 4/5) ∧
      (truthyStr fs.sql_error = true →
        ((runBatch invoke qs).getD i default).confidence = 1/5)) := by
  have key := runBatch_getD invoke qs i hi
  refine ⟨by simp [runBatch], ?_, ?_, ?_⟩
  · rw [key]
    rcases hinv : invoke (qs.getD i default) with e | fs <;>
      simp only [processOne, hinv]
  · intro e he
    rw [key]
    simp only [processOne, he]
  · intro fs hfs
    rw [key]
    simp only [processOne, hfs]
    constructor
    · constructor
      · intro ht
        simp [ht]
      · intro hconf
        by_contra hne
        rw [Bool.not_eq_false] at hne
        rw [if_pos hne] at hconf
        norm_num at hconf
    · intro ht
      simp [ht]

/-- Witness for C5: a two-line batch where the first question raises
and the second succeeds with no SQL error. -/
theorem batch_contract_witness :
    (0 < ([⟨"q1", "bad", none⟩, ⟨"q2", "ok", some "int"⟩] :
        List InQ).length) ∧
    (runBatch
        (fun q => if q.id = "q1" then .error "boom"
          else .ok (initState "ok" "int"))
        [⟨"q1", "bad", none⟩, ⟨"q2", "ok", some "int"⟩]).length = 2 ∧
    (runBatch
        (fun q => if q.id = "q1" then .error "boom"
          else .ok (initState "ok" "int"))
        [⟨"q1", "bad", none⟩, ⟨"q2", "ok", some "int"⟩]).getD 0 default =
      ⟨"q1", none, "", 0, "Error: boom", []⟩ := by
  have h := batch_contract
    (fun q => if q.id = "q1" then .error "boom"
      else .ok (initState "ok" "int"))
    [⟨"q1", "bad", none⟩, ⟨"q2", "ok", some "int"⟩] 0 (by decide)
  exact ⟨by decide, h.1, h.2.2.1 "boom" (by rfl)⟩

/-- Running `n + 1` steps also peels a step off the far end. -/
lemma runN_succ_right (env : Env) (n : Nat) (c : Config) :
    runN env (n + 1) c = step env (runN env n c) := by
  induction n generalizing c with
  | zero => rfl
  | succ m ih => exact ih (step env c)

/-- The inductive invariant behind C1: the repair budget is respected,
the ghost generation counter is at most `repair_count + 1`, and it
agrees with `repair_count` in the way each node's position in the
cycle dictates. -/
def invC1 (c : Config) : Prop :=
  c.st.repair_count ≤ 2 ∧
  c.genCount ≤ c.st.repair_count + 1 ∧
  ((c.node = Node.router ∨ c.node = Node.retriever ∨
      c.node = Node.planner) →
    c.st.repair_count = 0 ∧ c.genCount = 0) ∧
  (c.node = Node.sqlGen → c.genCount = c.st.repair_count) ∧
  (c.node = Node.executor → c.genCount = c.st.repair_count + 1) ∧
  (c.node = Node.repair →
    c.genCount = c.st.repair_count + 1 ∧ c.st.repair_count < 2)

/-- One step preserves `invC1`. -/
lemma invC1_step (env : Env) (c : Config) (h : invC1 c) :
    invC1 (step env c) := by
  obtain ⟨node, s, g⟩ := c
  obtain ⟨h1, h2, h3, h4, h5, h6⟩ := h
  cases node
  case router =>
    obtain ⟨hr0, hg0⟩ := h3 (Or.inl rfl)
    simp only [invC1, step]
    split_ifs <;> simp_all
  case retriever =>
    obtain ⟨hr0, hg0⟩ := h3 (Or.inr (Or.inl rfl))
    simp only [invC1, step]
    split_ifs <;> simp_all
  case planner =>
    obtain ⟨hr0, hg0⟩ := h3 (Or.inr (Or.inr rfl))
    simp only [invC1, step]
    simp_all
  case sqlGen =>
    have hg := h4 rfl
    simp only [invC1, step]
    simp_all
  case executor =>
    have hg := h5 rfl
    simp only [invC1, step]
    split
    · rename_i hrep
      simp only [repair_check] at hrep
      split at hrep
      · rename_i hcond
        simp_all
        try omega
      · simp_all
    · simp_all
  case repair =>
    obtain ⟨hg, hlt⟩ := h6 rfl
    simp only [invC1, step]
    simp_all
    try omega
  case synth =>
    simp only [invC1, step]
    simp_all
  case done =>
    exact ⟨h1, h2, h3, h4, h5, h6⟩

/-- The invariant `invC1` holds along any run from an `invC1` configuration. -/
lemma invC1_runN (env : Env) (n : Nat) :
    ∀ c, invC1 c → invC1 (runN env n c) := by
  induction n with
  | zero => exact fun c h => h
  | succ m ih => exact fun c h => ih _ (invC1_step env c h)

/-- C1: starting from the runner's initial state (`repair_count = 0`),
`repair_count` never exceeds 2 in any reachable configuration, and the
SQL generator node runs at most 3 times (the ghost counter `genCount`
stays at most 3), i.e. at most the initial attempt plus two repairs
before — and ever after — control reaches the synthesizer. -/
theorem repair_budget_never_exceeded (env : Env) (q fh : String)
    (n : Nat) :
    (runN env n (initConfig q fh)).st.repair_count ≤ 2 ∧
    (runN env n (initConfig q fh)).genCount ≤ 3 := by
  have h0 : invC1 (initConfig q fh) := by
    simp [invC1, initConfig, initState]
  have h := invC1_runN env n _ h0
  obtain ⟨h1, h2, -⟩ := h
  exact ⟨h1, by omega⟩

/-- The inductive invariant behind C3: on a `rag`-classified run the
question is fixed, the SQL fields keep their initial empty values,
and control only ever sits at router, retriever, synthesizer or the
terminal. -/
def invRag (q : String) (c : Config) : Prop :=
  c.st.question = q ∧ c.st.sql_query = "" ∧ c.st.sql_results = [] ∧
  (c.node = Node.router ∨ c.node = Node.retriever ∨
    c.node = Node.synth ∨ c.node = Node.done) ∧
  (c.node ≠ Node.router → c.st.classification = some "rag")

/-- One step preserves `invRag` when the classifier's answer for the
question normalizes to `"rag"`. -/
lemma invRag_step (env : Env) (q : String)
    (hcls : routerClassify (env.classify q) = "rag") (c : Config)
    (h : invRag q c) : invRag q (step env c) := by
  obtain ⟨node, s, g⟩ := c
  obtain ⟨hq, hsq, hsr, hnode, hclass⟩ := h
  rcases hnode with hn | hn | hn | hn <;> cases hn
  · have hc : routerClassify (env.classify s.question) = "rag" := by
      rw [hq]; exact hcls
    simp only [invRag, step, hc]
    simp_all
  · have hcl := hclass (by simp)
    simp only [invRag, step, hcl]
    simp_all
  · have hcl := hclass (by simp)
    simp only [invRag, step]
    simp_all
  · exact ⟨hq, hsq, hsr, Or.inr (Or.inr (Or.inr rfl)),
      fun _ => hclass (fun hcon => Node.noConfusion hcon)⟩

/-- The invariant `invRag` holds along any run. -/
lemma invRag_runN (env : Env) (q : String)
    (hcls : routerClassify (env.classify q) = "rag") (n : Nat) :
    ∀ c, invRag q c → invRag q (runN env n c) := by
  induction n with
  | zero => exact fun c h => h
  | succ m ih => exact fun c h => ih _ (invRag_step env q hcls c h)

/-- C3: when the classifier's answer for the question normalizes to
`"rag"`, the SQL generator and executor nodes are never visited, and
`sql_query` / `sql_results` keep their initial empty values in every
reachable configuration. -/
theorem rag_path_skips_sql (env : Env) (q fh : String)
    (hcls : routerClassify (env.classify q) = "rag") (n : Nat) :
    (runN env n (initConfig q fh)).node ≠ Node.sqlGen ∧
    (runN env n (initConfig q fh)).node ≠ Node.executor ∧
    (runN env n (initConfig q fh)).st.sql_query = "" ∧
    (runN env n (initConfig q fh)).st.sql_results = [] := by
  have h0 : invRag q (initConfig q fh) := by
    simp [invRag, initConfig, initState]
  have h := invRag_runN env q hcls n _ h0
  obtain ⟨-, hsq, hsr, hnode, -⟩ := h
  refine ⟨?_, ?_, hsq, hsr⟩ <;>
    rcases hnode with hn | hn | hn | hn <;> simp [hn]

/-- An environment whose classifier answers `"rag"`. -/
def envRag : Env :=
  { envSqlOk with classify := fun _ => .ok "rag" }

/-- Witness for C3 on a concrete `rag` run driven to termination. -/
theorem rag_path_skips_sql_witness :
    routerClassify (envRag.classify "What is the policy?") = "rag" ∧
    (runN envRag 5 (initConfig "What is the policy?" "str")).node ≠
      Node.sqlGen ∧
    (runN envRag 5 (initConfig "What is the policy?" "str")).st.sql_query
      = "" :=
  have h := rag_path_skips_sql envRag "What is the policy?" "str"
    (by decide) 5
  ⟨by decide, h.1, h.2.2.1⟩

/-- The inductive invariant behind C9: control can only sit at the
repair node with a truthy `sql_error`, because the only edge into it
is the repair-check decision. -/
def invRepairNode (c : Config) : Prop :=
  c.node = Node.repair → truthyStr c.st.sql_error = true

/-- One step preserves `invRepairNode`. -/
lemma invRepairNode_step (env : Env) (c : Config)
    (h : invRepairNode c) : invRepairNode (step env c) := by
  obtain ⟨node, s, g⟩ := c
  cases node <;> intro hr <;> simp only [step] at hr ⊢
  case router => split_ifs at hr <;> simp_all
  case retriever => split_ifs at hr <;> simp_all
  case planner => simp_all
  case sqlGen => simp_all
  case executor =>
    split at hr
    · rename_i hrep
      simp only [repair_check] at hrep
      split at hrep
      · rename_i hcond
        exact hcond.1
      · simp_all
    · simp_all
  case repair => simp_all
  case synth => simp_all
  case done => exact h hr

/-- The invariant `invRepairNode` holds along any run. -/
lemma invRepairNode_runN (env : Env) (n : Nat) :
    ∀ c, invRepairNode c → invRepairNode (runN env n c) := by
  induction n with
  | zero => exact fun c h => h
  | succ m ih => exact fun c h => ih _ (invRepairNode_step env c h)

/-- C9: whenever the repair node executes, `sql_error` is a non-empty
string (the repair-check guard is the only way in), so the repair node
sets `repair_feedback` to that very error text and its generic
"Invalid format or empty result" fallback branch never fires. -/
theorem repair_node_sees_real_error (env : Env) (q fh : String)
    (n : Nat) (h : (runN env n (initConfig q fh)).node = Node.repair) :
    ∃ e, (runN env n (initConfig q fh)).st.sql_error = some e ∧
      e ≠ "" ∧
      (runN env (n + 1) (initConfig q fh)).st.repair_feedback = some e := by
  have h0 : invRepairNode (initConfig q fh) := by
    intro hcon
    simp [initConfig] at hcon
  have hinv := invRepairNode_runN env n _ h0 h
  rcases herr : (runN env n (initConfig q fh)).st.sql_error with - | e
  · rw [herr] at hinv
    simp [truthyStr] at hinv
  · rw [herr] at hinv
    have hne : e ≠ "" := by
      simp [truthyStr] at hinv
      exact hinv
    refine ⟨e, rfl, hne, ?_⟩
    rw [runN_succ_right]
    generalize hc : runN env n (initConfig q fh) = c at h herr ⊢
    obtain ⟨node, s, g⟩ := c
    simp only at h herr
    subst h
    simp [step, herr, hne]

/-- An environment whose classifier answers `"sql"` and whose database
always faults. -/
def envErr : Env :=
  { envSqlOk with db := fun _ => .err "near FROM: syntax error" }

/-- Witness for C9: after router, generator and executor against a
faulting database, control sits at the repair node and the theorem
yields the non-empty error text as feedback. -/
theorem repair_node_sees_real_error_witness :
    (runN envErr 3 (initConfig "How many?" "int")).node = Node.repair ∧
    ∃ e, (runN envErr 3 (initConfig "How many?" "int")).st.sql_error =
        some e ∧ e ≠ "" ∧
      (runN envErr 4 (initConfig "How many?" "int")).st.repair_feedback =
        some e :=
  ⟨by decide, repair_node_sees_real_error envErr "How many?" "int" 3
    (by decide)⟩

/-- Any strictly ordered pair below `n` is a sublist of `range n`. -/
lemma pair_sublist_range {a b n : Nat} (hab : a < b) (hb : b < n) :
    ([a, b]).Sublist (List.range n) := by
  induction n with
  | zero => omega
  | succ m ih =>
    rw [List.range_succ]
    rcases Nat.lt_or_ge b m with hbm | hbm
    · exact (ih hbm).trans (List.sublist_append_left _ _)
    · have hbm2 : b = m := by omega
      subst hbm2
      exact List.Sublist.append
        (List.singleton_sublist.mpr (List.mem_range.mpr hab))
        (List.Sublist.refl _)

/-- In a duplicate-free list a pair cannot occur as a sublist in both
orders unless its components are equal. -/
lemma pair_sublist_asymm {α : Type} {a b : α} :
    ∀ {l : List α}, l.Nodup → ([a, b]).Sublist l → ([b, a]).Sublist l → a = b := by
  intro l
  induction l with
  | nil =>
    intro _ h1 _
    simp at h1
  | cons c t ih =>
    intro hnd h1 h2
    rw [List.nodup_cons] at hnd
    cases h1 with
    | cons _ h1 =>
      cases h2 with
      | cons _ h2 => exact ih hnd.2 h1 h2
      | cons₂ _ h2 =>
        exact absurd (h1.subset (by simp)) hnd.1
    | cons₂ _ h1 =>
      cases h2 with
      | cons _ h2 =>
        exact absurd (h2.subset (by simp)) hnd.1
      | cons₂ _ h2 => rfl

/-- The selected indices of `search` are sorted lexicographically:
strictly decreasing score, with equal scores in increasing original
index order (the stable-sort tie-break). -/
lemma searchIdxs_pairwise (scores : List ℚ) (k : Nat) :
    (searchIdxs scores k).Pairwise (fun i j =>
      scores.getD j 0 < scores.getD i 0 ∨
      (scores.getD i 0 = scores.getD j 0 ∧ i < j)) := by
  have main : ((List.range scores.length).mergeSort
      (fun i j => decide (scores.getD j 0 ≤ scores.getD i 0))).Pairwise
      (fun i j => scores.getD j 0 < scores.getD i 0 ∨
        (scores.getD i 0 = scores.getD j 0 ∧ i < j)) := by
    set n := scores.length with hn
    set le : Nat → Nat → Bool :=
      fun i j => decide (scores.getD j 0 ≤ scores.getD i 0) with hle
    have htrans : ∀ a b c : Nat, le a b → le b c → le a c := by
      intro a b c hab hbc
      simp only [hle, decide_eq_true_eq] at *
      exact le_trans hbc hab
    have htotal : ∀ a b : Nat, le a b || le b a := by
      intro a b
      simp only [hle, Bool.or_eq_true, decide_eq_true_eq]
      exact le_total _ _
    have hsorted := List.sorted_mergeSort htrans htotal (List.range n)
    have hperm := List.mergeSort_perm (List.range n) le
    have hnodup : ((List.range n).mergeSort le).Nodup :=
      hperm.nodup_iff.mpr (List.nodup_range n)
    rw [List.pairwise_iff_forall_sublist]
    intro a b hab
    have hle_ab : scores.getD b 0 ≤ scores.getD a 0 := by
      have := List.pairwise_iff_forall_sublist.mp hsorted hab
      simpa [hle] using this
    have hne : a ≠ b := List.pairwise_iff_forall_sublist.mp hnodup hab
    rcases lt_or_eq_of_le hle_ab with hlt | heq
    · exact Or.inl hlt
    · refine Or.inr ⟨heq.symm, ?_⟩
      rcases Nat.lt_or_ge a b with hlt2 | hge
      · exact hlt2
      · have hba : b < a := by omega
        have han : a < n := by
          have : a ∈ List.range n := hperm.subset (hab.subset (by simp))
          exact List.mem_range.mp this
        have hsub2 : ([b, a]).Sublist (List.range n) :=
          pair_sublist_range hba han
        have hlba : le b a := by
          simp only [hle, decide_eq_true_eq]
          exact le_of_eq heq.symm
        have hstable :=
          List.pair_sublist_mergeSort htrans htotal hlba hsub2
        exact absurd (pair_sublist_asymm hnodup hab hstable) hne
  exact List.Pairwise.sublist (List.take_sublist _ _) main

/-- C7: for every query and `k`, `search` returns at most `k` results,
ordered by non-increasing score; the underlying index selection is
lexicographically sorted — strictly greater score first, ties in
original chunk order (Python's stable sort with `reverse=True`); an
index with no chunks yields the empty sequence; and the function is
total, so the call never raises. -/
theorem search_top_k_contract (r : Retriever) (scorer : Scorer)
    (query : String) (k : Nat) :
    (r.search scorer query k).length ≤ k ∧
    (r.search scorer query k).Pairwise (fun x y => y.2 ≤ x.2) ∧
    ((searchIdxs (scorer r.corpusTokens (tokenize query)) k).Pairwise
      (fun i j =>
        (scorer r.corpusTokens (tokenize query)).getD j 0 <
          (scorer r.corpusTokens (tokenize query)).getD i 0 ∨
        ((scorer r.corpusTokens (tokenize query)).getD i 0 =
          (scorer r.corpusTokens (tokenize query)).getD j 0 ∧ i < j))) ∧
    (r.corpusTokens = [] → r.search scorer query k = []) := by
  refine ⟨?_, ?_, searchIdxs_pairwise _ k, ?_⟩
  · unfold Retriever.search
    split
    · simp
    · simp only [List.length_map, searchIdxs, List.length_take]
      exact Nat.min_le_left _ _
  · unfold Retriever.search
    split
    · simp
    · exact List.Pairwise.map _
        (fun i j hij => by
          rcases hij with h | h
          · exact le_of_lt h
          · exact le_of_eq h.1.symm)
        (searchIdxs_pairwise _ k)
  · intro h
    unfold Retriever.search
    rw [if_pos (by simp [h])]

/-- Witness for C7: an empty corpus yields an empty result, and a
one-file corpus respects the bound `k = 1`. -/
theorem search_top_k_contract_witness :
    (buildRetriever []).corpusTokens = [] ∧
    (buildRetriever []).search tokenCountScorer "anything" 3 = [] ∧
    ((buildRetriever [⟨"a.md", "alpha\n\nbeta gamma"⟩]).search
      tokenCountScorer "x" 1).length ≤ 1 :=
  ⟨by decide,
    (search_top_k_contract (buildRetriever []) tokenCountScorer
      "anything" 3).2.2.2 (by decide),
    (search_top_k_contract (buildRetriever [⟨"a.md", "alpha\n\nbeta gamma"⟩])
      tokenCountScorer "x" 1).1⟩

/-- C8: building the index is a pure function of the listed corpus —
two builds over the same corpus produce identical retrievers (same
chunks, hence same chunk IDs, and the same parallel tokenized corpus),
and every query scores and ranks identically against them; moreover
every produced chunk ID has the form `filename::chunk<ordinal>` for
some corpus file. -/
theorem build_deterministic (c1 c2 : List RawDoc) (h : c1 = c2) :
    buildRetriever c1 = buildRetriever c2 ∧
    (∀ scorer query k,
      (buildRetriever c1).search scorer query k =
        (buildRetriever c2).search scorer query k) ∧
    ∀ ch ∈ (buildRetriever c1).chunks, ∃ d ∈ c1, ∃ i : Nat,
      ch.id = d.filename ++ "::chunk" ++ toString i ∧
      ch.source = d.filename := by
  subst h
  refine ⟨rfl, fun _ _ _ => rfl, ?_⟩
  intro ch hch
  simp only [buildRetriever, List.mem_map] at hch
  obtain ⟨e, he, rfl⟩ := hch
  rw [List.mem_flatten] at he
  obtain ⟨l, hl, hel⟩ := he
  rw [List.mem_map] at hl
  obtain ⟨d, hd, rfl⟩ := hl
  refine ⟨d, hd, ?_⟩
  unfold docEntries at hel
  by_cases hmd : pyEndsWith d.filename ".md" = true
  · rw [if_pos hmd] at hel
    rw [List.mem_filterMap] at hel
    obtain ⟨p, hp, hpe⟩ := hel
    by_cases hstr : pyStrip p.2 ≠ ""
    · rw [if_pos hstr] at hpe
      cases hpe
      exact ⟨p.1, rfl, rfl⟩
    · rw [if_neg hstr] at hpe
      cases hpe
  · rw [if_neg hmd] at hel
    simp at hel

/-- Witness for C8: two identical one-file corpora build identical
retrievers, and the produced chunk IDs have the stated shape. -/
theorem build_deterministic_witness :
    buildRetriever [⟨"a.md", "Returns policy\n\nx"⟩] =
      buildRetriever [⟨"a.md", "Returns policy\n\nx"⟩] ∧
    ∃ d ∈ [(⟨"a.md", "Returns policy\n\nx"⟩ : RawDoc)], ∃ i : Nat,
      (⟨"a.md::chunk0", "Returns policy", "a.md"⟩ : Chunk).id =
        d.filename ++ "::chunk" ++ toString i ∧
      (⟨"a.md::chunk0", "Returns policy", "a.md"⟩ : Chunk).source =
        d.filename :=
  have h := build_deterministic [⟨"a.md", "Returns policy\n\nx"⟩]
    [⟨"a.md", "Returns policy\n\nx"⟩] rfl
  ⟨h.1, h.2.2 ⟨"a.md::chunk0", "Returns policy", "a.md"⟩ (by decide)⟩
